import Mathlib

/-!
Verification of the daily activity time tracker (`daily_time_tracker_bot.py`).

Shallow embedding conventions:
* instants (`datetime.now()`) are modelled as `Int` seconds;
* durations (`timedelta`) are modelled as `Int` seconds;
* the per-user state dictionary created by `get_user_state` is modelled by
  the structure `DayState`;
* the four activity codes `"contrib" / "soft" / "hands" / "coding"` are the
  inductive `Act`;
* message strings are reproduced verbatim from the source; `strftime('%H:%M')`
  is modelled by `fmtHM` on the integer instant.
-/

namespace DailyTracker

/-- The four activity codes of the bot (module comment, line 33 of the source). -/
inductive Act where
  | contrib
  | soft
  | hands
  | coding
deriving DecidableEq, Repr

/-- `ACTIVITY_NAMES` (source lines 85-90). -/
def activity_name : Act → String
  | .contrib => "Contribution (X/DC)"
  | .soft => "Abuse Soft (Retro/Free)"
  | .hands => "Abuse Hands (Retro/Free)"
  | .coding => "Coding"

/-- The per-user state dictionary created by `get_user_state` (lines 37-51). -/
structure DayState where
  wake_time : Option Int
  sleep_time : Option Int
  current_activity : Option Act
  current_start : Option Int
  totals : Act → Int

/-- The fresh per-user state installed by `get_user_state` on first access
(lines 38-50): no wake/sleep mark, no running activity, all totals zero. -/
def init_user_state : DayState :=
  { wake_time := none
    sleep_time := none
    current_activity := none
    current_start := none
    totals := fun _ => 0 }

/-- Two-digit zero padding, modelling the `%H` / `%M` fields of `strftime`. -/
def pad2 (n : Int) : String :=
  if n < 10 then "0" ++ toString n else toString n

/-- Model of `now.strftime('%H:%M')` for an instant counted in seconds. -/
def fmtHM (t : Int) : String :=
  pad2 (t / 3600 % 24) ++ ":" ++ pad2 (t / 60 % 60)

/-- `format_timedelta` (lines 56-60): clamp the duration to be non-negative,
then print whole hours and the remaining whole minutes. -/
def format_timedelta (td : Int) : String :=
  let total_seconds := max 0 td
  let hours := total_seconds / 3600
  let minutes := total_seconds % 3600 / 60
  toString hours ++ "h " ++ toString minutes ++ "min"

/-- `close_current_activity` (lines 232-245): no-op returning `none` unless an
activity and its start instant are both present; otherwise credit the clamped
elapsed time to that activity's total, clear the running activity, and return
its code. -/
def close_current_activity (s : DayState) (now : Int) : DayState × Option Act :=
  match s.current_activity, s.current_start with
  | some code, some start =>
      let delta := now - start
      let delta := if delta < 0 then 0 else delta
      ({ s with
          totals := fun k => if k = code then s.totals k + delta else s.totals k
          current_activity := none
          current_start := none },
       some code)
  | _, _ => (s, none)

/-- `build_daily_report_text` (lines 248-292).  The source copies `totals`
into a local dict and adds the in-flight activity's clamped elapsed time to
the copy only; the state itself is never written.  The closing `Now:` block
reads `current_start.strftime` and is rendered here from the
`(some k, some st)` case, the only one reachable under the state invariant. -/
def build_daily_report_text (s : DayState) (now : Int) : String :=
  match s.wake_time with
  | none => "First mark 🟢 Woke up."
  | some wake =>
    let totals : Act → Int :=
      match s.current_activity, s.current_start with
      | some k, some st =>
          let extra := now - st
          let extra := if extra < 0 then 0 else extra
          fun j => if j = k then s.totals j + extra else s.totals j
      | _, _ => s.totals
    let endT : Int :=
      match s.sleep_time with
      | some sl => sl
      | none => now
    let alive := endT - wake
    let alive := if alive < 0 then 0 else alive
    let base :=
      "📊 Daily Report" ++
      "\nWoke up: " ++ fmtHM wake ++
      (match s.sleep_time with
       | some _ => "\nSleep time: " ++ fmtHM endT
       | none => "\nSleep time: not yet") ++
      "\nAlive: " ++ format_timedelta alive ++
      "\n" ++
      "\nWork:" ++
      "\n• Contribution (X/DC): " ++ format_timedelta (totals .contrib) ++
      "\n• Abuse:" ++
      "\n  - Soft (Retro/Free): " ++ format_timedelta (totals .soft) ++
      "\n  - Hands (Retro/Free): " ++ format_timedelta (totals .hands) ++
      "\n• Coding: " ++ format_timedelta (totals .coding)
    match s.current_activity, s.current_start with
    | some k, some st =>
        base ++ "\n" ++ "\nNow: " ++ activity_name k ++ " (since " ++ fmtHM st ++ ")"
    | _, _ => base

/-- Helper closure `start_act` of `callback_handler` (lines 456-463): close
whatever is running, then make `code` the running activity started at `now`.
Returns the new state, the auto-paused code (the closure's local `closed`),
and the reply text. -/
def start_act (s : DayState) (code : Act) (now : Int) : DayState × Option Act × String :=
  let closed := close_current_activity s now
  let s2 := { closed.1 with current_activity := some code, current_start := some now }
  let text := "▶️ Start " ++ activity_name code ++ " at " ++ fmtHM now ++ "."
  let text :=
    match closed.2 with
    | some c => text ++ "\nAuto pause: " ++ activity_name c ++ "."
    | none => text
  (s2, closed.2, text)

/-- Helper closure `pause_act` (lines 465-469): reject when `code` is not the
running activity, otherwise close it. -/
def pause_act (s : DayState) (code : Act) (now : Int) : DayState × String :=
  if s.current_activity ≠ some code then
    (s, activity_name code ++ " is not active.")
  else
    ((close_current_activity s now).1,
     "⏸ Pause " ++ activity_name code ++ " at " ++ fmtHM now ++ ".")

/-- Helper closure `continue_act` (lines 471-474): unconditionally make `code`
the running activity started at `now`, without closing anything first. -/
def continue_act (s : DayState) (code : Act) (now : Int) : DayState × String :=
  ({ s with current_activity := some code, current_start := some now },
   "▶️ Continue " ++ activity_name code ++ " at " ++ fmtHM now ++ ".")

/-- The button presses `callback_handler` (lines 389-515) dispatches on.  The
pause/continue buttons are generated by the bot's own keyboards, so their
payload codes range over the four activities. -/
inductive Btn where
  | woke_up
  | sleep_time
  | start_contrib
  | start_soft
  | start_hands
  | start_coding
  | pause (k : Act)
  | cont (k : Act)
  | daily_report
  | show_menu
  | abuse_menu
deriving DecidableEq, Repr

/-- The state transition and (first) reply text of `callback_handler`
(lines 389-515).  The sleep branch additionally persists the finished day and
sends the daily report as a second message; only the state mutation and the
first reply are modelled here. -/
def callback_step (s : DayState) (data : Btn) (now : Int) : DayState × String :=
  match data with
  | .show_menu => (s, "Menu:")
  | .woke_up =>
      ({ wake_time := some now
         sleep_time := none
         current_activity := none
         current_start := none
         totals := fun _ => 0 },
       "🟢 Woke up at " ++ fmtHM now ++ ".")
  | .sleep_time =>
      match s.wake_time with
      | none => (s, "First mark 🟢 Woke up.")
      | some _ =>
          let s1 := { s with sleep_time := some now }
          let closed := close_current_activity s1 now
          let msg := "😴 Sleep time at " ++ fmtHM now ++ "."
          let msg :=
            match closed.2 with
            | some c => msg ++ "\nAuto pause: " ++ activity_name c ++ "."
            | none => msg
          (closed.1, msg)
  | .abuse_menu => (s, "Abuse mode:")
  | .start_contrib =>
      let r := start_act s .contrib now
      (r.1, r.2.2)
  | .start_soft =>
      let r := start_act s .soft now
      (r.1, r.2.2)
  | .start_hands =>
      let r := start_act s .hands now
      (r.1, r.2.2)
  | .start_coding =>
      let r := start_act s .coding now
      (r.1, r.2.2)
  | .pause k => pause_act s k now
  | .cont k => continue_act s k now
  | .daily_report => (s, build_daily_report_text s now)

/-- A calendar date, as stored in the `date` column (ISO `YYYY-MM-DD` text). -/
structure MDate where
  y : Int
  m : Int
  d : Int
deriving DecidableEq, Repr

/-- Four-digit zero padding for the year field of `date.isoformat()`. -/
def pad4 (n : Int) : String :=
  if n < 10 then "000" ++ toString n
  else if n < 100 then "00" ++ toString n
  else if n < 1000 then "0" ++ toString n
  else toString n

/-- `date.isoformat()`: zero-padded `YYYY-MM-DD`. -/
def MDate.iso (a : MDate) : String :=
  pad4 a.y ++ "-" ++ pad2 a.m ++ "-" ++ pad2 a.d

/-- The SQL `date >= ? / date <= ?` comparison of ISO date text, which for
zero-padded dates is the lexicographic order on (year, month, day). -/
def dateLe (a b : MDate) : Bool :=
  if a.y ≠ b.y then decide (a.y < b.y)
  else if a.m ≠ b.m then decide (a.m < b.m)
  else decide (a.d ≤ b.d)

/-- One row of the `daily_stats` table (lines 143-156). -/
structure DayRow where
  user_id : Int
  date : MDate
  alive_seconds : Int
  contrib_seconds : Int
  hands_seconds : Int
  soft_seconds : Int
  coding_seconds : Int
deriving DecidableEq, Repr

/-- The aggregate dict returned by `get_stats_range` (lines 220-227). -/
structure RangeStats where
  alive : Int
  contrib : Int
  hands : Int
  soft : Int
  coding : Int
  days_count : Nat
deriving DecidableEq, Repr

/-- The row filter of the `get_stats_range` query (lines 207-209). -/
def row_matches (user_id : Int) (start_date end_date : MDate) (r : DayRow) : Bool :=
  decide (r.user_id = user_id) && dateLe start_date r.date && dateLe r.date end_date

/-- `get_stats_range` (lines 194-227): `COALESCE(SUM(...), 0)` of each of the
five duration columns plus `COUNT(*)` over the rows of the table (`rows`)
matching the user and the inclusive date range. -/
def get_stats_range (rows : List DayRow) (user_id : Int) (start_date end_date : MDate) :
    RangeStats :=
  let ms := rows.filter (row_matches user_id start_date end_date)
  { alive := (ms.map (·.alive_seconds)).sum
    contrib := (ms.map (·.contrib_seconds)).sum
    hands := (ms.map (·.hands_seconds)).sum
    soft := (ms.map (·.soft_seconds)).sum
    coding := (ms.map (·.coding_seconds)).sum
    days_count := ms.length }

/-- `build_range_report_text` (lines 295-320).  `stats` is optional because
the Python caller may pass `None`; with zero finished days the "no finished
days" message is produced and no average is computed, otherwise the per-day
averages divide each sum by `days_count`. -/
def build_range_report_text (title : String) (stats : Option RangeStats)
    (start_date end_date : MDate) : String :=
  match stats with
  | none => title ++ "\n\nNo finished days in this period."
  | some st =>
    if st.days_count = 0 then
      title ++ "\n\nNo finished days in this period."
    else
      let dc : Int := (st.days_count : Int)
      title ++
      "\nPeriod: " ++ start_date.iso ++ " – " ++ end_date.iso ++
      "\nDays: " ++ toString st.days_count ++
      "\n" ++
      "\nAlive total: " ++ format_timedelta st.alive ++
      "\n" ++
      "\nWork total:" ++
      "\n• Contribution: " ++ format_timedelta st.contrib ++
      "\n• Abuse:" ++
      "\n  - Soft: " ++ format_timedelta st.soft ++
      "\n  - Hands: " ++ format_timedelta st.hands ++
      "\n• Coding: " ++ format_timedelta st.coding ++
      "\n" ++
      "\nPer day (avg):" ++
      "\n• Alive: " ++ format_timedelta (st.alive / dc) ++
      "\n• Contribution: " ++ format_timedelta (st.contrib / dc) ++
      "\n• Abuse Soft: " ++ format_timedelta (st.soft / dc) ++
      "\n• Abuse Hands: " ++ format_timedelta (st.hands / dc) ++
      "\n• Coding: " ++ format_timedelta (st.coding / dc)

/-- Model of Python `int(token)` on command tokens: an optional sign followed
by at least one decimal digit. -/
def py_int (s : String) : Option Int :=
  let digitsVal : List Char → Option Nat := fun l =>
    match l with
    | [] => none
    | _ =>
      l.foldl
        (fun acc c =>
          acc.bind fun n => if c.isDigit then some (n * 10 + (c.toNat - 48)) else none)
        (some 0)
  match s.data with
  | '-' :: rest => (digitsVal rest).map (fun n => -(n : Int))
  | '+' :: rest => (digitsVal rest).map (fun n => (n : Int))
  | l => (digitsVal l).map (fun n => (n : Int))

/-- Python `token.split("-", 1)` for a token containing `-`: the part before
the first `-` and everything after it. -/
def split_once (s : String) : String × String :=
  (⟨s.data.takeWhile (fun c => c ≠ '-')⟩, ⟨(s.data.dropWhile (fun c => c ≠ '-')).tail⟩)

/-- Whether `y` is a leap year (Gregorian rule used by `calendar.monthrange`). -/
def is_leap (y : Int) : Bool :=
  y % 4 = 0 && (y % 100 ≠ 0 || y % 400 = 0)

/-- `calendar.monthrange(y, m)[1]`: the number of days in the month. -/
def days_in_month (y m : Int) : Int :=
  if m = 2 then (if is_leap y then 29 else 28)
  else if m = 4 ∨ m = 6 ∨ m = 9 ∨ m = 11 then 30
  else 31

/-- The three possible outcomes of the `/month` command's argument handling. -/
inductive MonthResult where
  | usage
  | badMonth
  | report (first_day last_day : MDate) (title : String)
deriving DecidableEq, Repr

/-- The argument parsing and range resolution of `month_cmd` (lines 347-384):
no token keeps today's year/month; a single token containing `-` is split as
`YEAR-MONTH`; two tokens are `MONTH YEAR`; a failed `int()` or any other token
shape yields the usage hint; `date(year, month, 1)` raising `ValueError`
(month outside 1..12 or year outside `date`'s 1..9999 range) yields the
"Bad month." reply; otherwise the range runs from the 1st to the last day of
the month. -/
def month_cmd (args : List String) (today_year today_month : Int) : MonthResult :=
  let finish : Int → Int → MonthResult := fun year month =>
    if 1 ≤ month ∧ month ≤ 12 ∧ 1 ≤ year ∧ year ≤ 9999 then
      .report ⟨year, month, 1⟩ ⟨year, month, days_in_month year month⟩
        ("📊 Month " ++ toString year ++ "-" ++ pad2 month)
    else .badMonth
  match args with
  | [] => finish today_year today_month
  | [a] =>
      if a.data.contains '-' then
        match py_int (split_once a).1, py_int (split_once a).2 with
        | some y, some m => finish y m
        | _, _ => .usage
      else .usage
  | [a, b] =>
      match py_int a, py_int b with
      | some m, some y => finish y m
      | _, _ => .usage
  | _ => .usage

/-- An activity-transition operation of the engine, as named by the spec:
`start` is `start_act`, `pause` is `pause_act`, `resume` is `continue_act`. -/
inductive Op where
  | start (k : Act)
  | pause (k : Act)
  | resume (k : Act)
deriving DecidableEq, Repr

/-- A timestamped operation. -/
structure Event where
  op : Op
  time : Int
deriving DecidableEq, Repr

/-- The state part of applying one operation. -/
def step (s : DayState) (e : Event) : DayState :=
  match e.op with
  | .start k => (start_act s k e.time).1
  | .pause k => (pause_act s k e.time).1
  | .resume k => (continue_act s k e.time).1

/-- Applying a whole sequence of operations. -/
def run (s : DayState) (es : List Event) : DayState :=
  es.foldl step s

/-- The sum of the four accumulated per-activity totals. -/
def sumTotals (s : DayState) : Int :=
  s.totals .contrib + s.totals .soft + s.totals .hands + s.totals .coding

/-- The clamped elapsed duration of the currently-running activity at `t`
(zero when nothing is running). -/
def live (s : DayState) (t : Int) : Int :=
  match s.current_activity, s.current_start with
  | some _, some st => if t - st < 0 then 0 else t - st
  | _, _ => 0

/-- Accumulated totals plus the running activity's elapsed time at `t`. -/
def tracked (s : DayState) (t : Int) : Int :=
  sumTotals s + live s t

/-- Whether an operation makes an activity run. -/
def isActivating : Op → Bool
  | .start _ => true
  | .resume _ => true
  | .pause _ => false

/-- The time of the first operation of the sequence that starts an activity. -/
def firstStart : List Event → Option Int
  | [] => none
  | e :: rest => if isActivating e.op then some e.time else firstStart rest

/-- The event times are non-decreasing, starting no earlier than `b`. -/
def chainFrom : Int → List Event → Prop
  | _, [] => True
  | b, e :: rest => b ≤ e.time ∧ chainFrom e.time rest

/-- The event times of the sequence are non-decreasing. -/
def chainTimes : List Event → Prop
  | [] => True
  | e :: rest => chainFrom e.time rest

/-- The Day State invariant: an activity code is recorded iff its start
instant is. -/
def Inv (s : DayState) : Prop :=
  s.current_activity = none ↔ s.current_start = none

/-! ### Helper lemmas -/

lemma close_wake (s : DayState) (now : Int) :
    (close_current_activity s now).1.wake_time = s.wake_time := by
  rcases h1 : s.current_activity with _ | k <;>
    rcases h2 : s.current_start with _ | st <;>
      simp [close_current_activity, h1, h2]

lemma close_sleep (s : DayState) (now : Int) :
    (close_current_activity s now).1.sleep_time = s.sleep_time := by
  rcases h1 : s.current_activity with _ | k <;>
    rcases h2 : s.current_start with _ | st <;>
      simp [close_current_activity, h1, h2]

lemma live_nonneg (s : DayState) (t : Int) : 0 ≤ live s t := by
  rcases h1 : s.current_activity with _ | k <;>
    rcases h2 : s.current_start with _ | st <;>
      simp [live, h1, h2]
  split <;> omega

lemma live_mono (s : DayState) {t u : Int} (h : t ≤ u) : live s t ≤ live s u := by
  rcases h1 : s.current_activity with _ | k <;>
    rcases h2 : s.current_start with _ | st <;>
      simp [live, h1, h2]
  split <;> split <;> omega

lemma close_sum (s : DayState) (now : Int) :
    sumTotals (close_current_activity s now).1 = sumTotals s + live s now := by
  rcases h1 : s.current_activity with _ | k <;>
    rcases h2 : s.current_start with _ | st <;>
      simp [close_current_activity, live, h1, h2]
  cases k <;> simp [sumTotals] <;> ring

lemma close_live_zero (s : DayState) (now u : Int) :
    live (close_current_activity s now).1 u = 0 := by
  rcases h1 : s.current_activity with _ | k <;>
    rcases h2 : s.current_start with _ | st <;>
      simp [close_current_activity, live, h1, h2]

lemma start_act_sum (s : DayState) (k : Act) (now : Int) :
    sumTotals (start_act s k now).1 = sumTotals s + live s now := by
  show sumTotals (close_current_activity s now).1 = sumTotals s + live s now
  exact close_sum s now

/-! ### C10 — frame property of the transition operations -/

/-- C10: `close_current_activity`, `start_act`, `pause_act` and `continue_act`
never change the `wake_time` and `sleep_time` fields of the Day State. -/
theorem transitions_preserve_wake_sleep (s : DayState) (k : Act) (now : Int) :
    (close_current_activity s now).1.wake_time = s.wake_time ∧
    (close_current_activity s now).1.sleep_time = s.sleep_time ∧
    (start_act s k now).1.wake_time = s.wake_time ∧
    (start_act s k now).1.sleep_time = s.sleep_time ∧
    (pause_act s k now).1.wake_time = s.wake_time ∧
    (pause_act s k now).1.sleep_time = s.sleep_time ∧
    (continue_act s k now).1.wake_time = s.wake_time ∧
    (continue_act s k now).1.sleep_time = s.sleep_time := by
  refine ⟨close_wake s now, close_sleep s now, close_wake s now, close_sleep s now,
    ?_, ?_, rfl, rfl⟩ <;>
  · unfold pause_act
    split
    · rfl
    · first
      | exact close_wake s now
      | exact close_sleep s now

/-! ### C3 — specification of `close_current_activity` -/

/-- C3: `close_current_activity` is a no-op returning `none` when no activity
(or no start instant) is recorded — so a second consecutive call is always a
no-op; otherwise it adds exactly `max 0 (now - currentStart)` to the running
activity's total, clears the running activity and its start, and returns the
closed activity's code. -/
theorem close_current_activity_spec (s : DayState) (now : Int) :
    ((s.current_activity = none ∨ s.current_start = none) →
        close_current_activity s now = (s, none)) ∧
    (∀ k st, s.current_activity = some k → s.current_start = some st →
        close_current_activity s now =
          ({ s with
              totals := fun j => if j = k then s.totals j + max 0 (now - st) else s.totals j
              current_activity := none
              current_start := none }, some k)) ∧
    (∀ now2, close_current_activity (close_current_activity s now).1 now2 =
        ((close_current_activity s now).1, none)) := by
  refine ⟨?_, ?_, ?_⟩
  · rintro (h | h) <;>
      rcases h1 : s.current_activity with _ | k <;>
        rcases h2 : s.current_start with _ | st <;>
          simp_all [close_current_activity]
  · intro k st h1 h2
    simp only [close_current_activity, h1, h2]
    have hm : (if now - st < 0 then 0 else now - st) = max 0 (now - st) := by omega
    rw [hm]
  · intro now2
    rcases h1 : s.current_activity with _ | k <;>
      rcases h2 : s.current_start with _ | st <;>
        simp [close_current_activity, h1, h2]

/-- C3 witness: concrete evaluation of the two branches of the theorem. -/
theorem close_current_activity_spec_witness :
    close_current_activity
        { init_user_state with
            current_activity := some .coding
            current_start := some 4 } 10 =
      ({ init_user_state with
          totals := fun j => if j = Act.coding then init_user_state.totals j + max 0 (10 - 4)
                             else init_user_state.totals j
          current_activity := none
          current_start := none }, some .coding) ∧
    close_current_activity init_user_state 7 = (init_user_state, none) :=
  ⟨(close_current_activity_spec
      { init_user_state with
          current_activity := some .coding
          current_start := some 4 }
      10).2.1 .coding 4 rfl rfl,
   (close_current_activity_spec init_user_state 7).1 (Or.inl rfl)⟩

/-! ### C4 — the daily report is a pure, idempotent read -/

/-- C4: the `daily_report` step returns the state unchanged (in particular
the totals map is not mutated — the in-flight activity's elapsed time is
only added to a working copy inside `build_daily_report_text`), and a second
call with the identical state and instant yields the identical text. -/
theorem daily_report_pure (s : DayState) (now : Int) :
    callback_step s .daily_report now = (s, build_daily_report_text s now) ∧
    (callback_step s .daily_report now).1.totals = s.totals ∧
    callback_step (callback_step s .daily_report now).1 .daily_report now =
      callback_step s .daily_report now :=
  ⟨rfl, rfl, rfl⟩

/-! ### C2 — switching activities credits the closed one exactly -/

/-- C2: starting `B` at `t1` while `A` (started at `t0`) runs auto-closes `A`,
returns `A` as the auto-paused code, credits `A` with exactly `t1 - t0`, and
after pausing `B` at `t2` credits `B` with exactly `t2 - t1`; nothing is
assumed about `wake_time`, and when nothing runs the returned auto-paused
code is `none`. -/
theorem start_act_switch (s : DayState) (A B : Act) (t0 t1 t2 : Int)
    (hA : s.current_activity = some A) (hS : s.current_start = some t0)
    (hAB : A ≠ B) (h01 : t0 ≤ t1) (h12 : t1 ≤ t2) :
    (start_act s B t1).2.1 = some A ∧
    (start_act s B t1).1.current_activity = some B ∧
    (start_act s B t1).1.current_start = some t1 ∧
    (start_act s B t1).1.totals A = s.totals A + (t1 - t0) ∧
    (pause_act (start_act s B t1).1 B t2).1.totals A = s.totals A + (t1 - t0) ∧
    (pause_act (start_act s B t1).1 B t2).1.totals B = s.totals B + (t2 - t1) ∧
    (pause_act (start_act s B t1).1 B t2).1.current_activity = none ∧
    (∀ s2 : DayState, s2.current_activity = none → (start_act s2 B t1).2.1 = none) := by
  refine ⟨?_, rfl, rfl, ?_, ?_, ?_, ?_, ?_⟩
  · simp [start_act, close_current_activity, hA, hS]
  · simp [start_act, close_current_activity, hA, hS]
    omega
  · simp [start_act, pause_act, close_current_activity, hA, hS, hAB]
    omega
  · simp [start_act, pause_act, close_current_activity, hA, hS, Ne.symm hAB]
    omega
  · simp [start_act, pause_act, close_current_activity, hA, hS]
  · intro s2 h
    simp [start_act, close_current_activity, h]

/-- C2 witness: start contrib at 0 from a fresh day, start coding at 10,
pause coding at 25; contrib is credited 10, coding 15. -/
theorem start_act_switch_witness :
    ((start_act { init_user_state with
        current_activity := some .contrib
        current_start := some 0 } .coding 10).2.1 = some .contrib ∧
     (pause_act (start_act { init_user_state with
        current_activity := some .contrib
        current_start := some 0 } .coding 10).1 .coding 25).1.totals .contrib =
       (0 : Int) + (10 - 0) ∧
     (pause_act (start_act { init_user_state with
        current_activity := some .contrib
        current_start := some 0 } .coding 10).1 .coding 25).1.totals .coding =
       (0 : Int) + (25 - 10)) := by
  have h := start_act_switch
    { init_user_state with current_activity := some .contrib, current_start := some 0 }
    .contrib .coding 0 10 25 rfl rfl (by decide) (by decide) (by decide)
  exact ⟨h.1, h.2.2.2.2.1, h.2.2.2.2.2.1⟩

/-! ### C5 — ending the day -/

lemma ne_of_head (x : String) (hx : x.data.head? = some '😴') :
    x ≠ "First mark 🟢 Woke up." := by
  intro h
  rw [h] at hx
  exact absurd hx (by decide)

/-- C5: the sleep-time step fails with the "no active day" reply and leaves
the state untouched exactly when `wake_time` is unset; otherwise it records
`sleep_time = now`, closes any running activity through
`close_current_activity`, and reports the auto-paused activity (if any) in
the reply. -/
theorem sleep_time_spec (s : DayState) (now : Int) :
    (s.wake_time = none → callback_step s .sleep_time now = (s, "First mark 🟢 Woke up.")) ∧
    (s.wake_time ≠ none →
      (callback_step s .sleep_time now).1 =
        (close_current_activity { s with sleep_time := some now } now).1 ∧
      (callback_step s .sleep_time now).1.sleep_time = some now ∧
      (callback_step s .sleep_time now).2 =
        (match (close_current_activity { s with sleep_time := some now } now).2 with
         | some c => "😴 Sleep time at " ++ fmtHM now ++ "." ++
             "\nAuto pause: " ++ activity_name c ++ "."
         | none => "😴 Sleep time at " ++ fmtHM now ++ ".") ∧
      (callback_step s .sleep_time now).2 ≠ "First mark 🟢 Woke up.") := by
  constructor
  · intro hw
    simp [callback_step, hw]
  · intro hw
    rcases hwk : s.wake_time with _ | w
    · exact absurd hwk hw
    refine ⟨?_, ?_, ?_, ?_⟩
    · simp [callback_step, hwk]
    · have h1 : (callback_step s .sleep_time now).1 =
          (close_current_activity { s with sleep_time := some now } now).1 := by
        simp [callback_step, hwk]
      rw [h1, close_sleep]
    · simp [callback_step, hwk]
    · have h2 : (callback_step s .sleep_time now).2 =
          (match (close_current_activity { s with sleep_time := some now } now).2 with
           | some c => "😴 Sleep time at " ++ fmtHM now ++ "." ++
               "\nAuto pause: " ++ activity_name c ++ "."
           | none => "😴 Sleep time at " ++ fmtHM now ++ ".") := by
        simp [callback_step, hwk]
      rw [h2]
      rcases (close_current_activity { s with sleep_time := some now } now).2 with _ | c
      · exact ne_of_head _ rfl
      · exact ne_of_head _ rfl

/-- C5 witness: with no wake mark the state is unchanged and the "no active
day" reply is produced; with a wake mark the sleep instant is recorded. -/
theorem sleep_time_spec_witness :
    callback_step init_user_state .sleep_time 9 = (init_user_state, "First mark 🟢 Woke up.") ∧
    (callback_step { init_user_state with wake_time := some 3 } .sleep_time 9).1.sleep_time =
      some 9 :=
  ⟨(sleep_time_spec init_user_state 9).1 rfl,
   ((sleep_time_spec { init_user_state with wake_time := some 3 } 9).2
      (by decide)).2.1⟩

/-! ### C6 — the running-activity invariant -/

lemma inv_close (s : DayState) (now : Int) (h : Inv s) :
    Inv (close_current_activity s now).1 := by
  rcases h1 : s.current_activity with _ | k <;>
    rcases h2 : s.current_start with _ | st <;>
      simp_all [close_current_activity, Inv]

lemma inv_start (s : DayState) (k : Act) (now : Int) : Inv (start_act s k now).1 := by
  simp [Inv, start_act]

lemma inv_pause (s : DayState) (k : Act) (now : Int) (h : Inv s) :
    Inv (pause_act s k now).1 := by
  unfold pause_act
  split
  · exact h
  · exact inv_close s now h

lemma inv_cont (s : DayState) (k : Act) (now : Int) : Inv (continue_act s k now).1 := by
  simp [Inv, continue_act]

/-- C6: `currentActivity = none ⇔ currentStart = null` holds in the fresh
per-user state and is preserved by `close_current_activity`, `start_act`,
`pause_act`, `continue_act`, and every button handled by `callback_step`
(begin day, end day, starts, pauses, resumes, the daily report and the
menus). -/
theorem inv_preserved :
    Inv init_user_state ∧
    (∀ s now, Inv s → Inv (close_current_activity s now).1) ∧
    (∀ s k now, Inv s → Inv (start_act s k now).1) ∧
    (∀ s k now, Inv s → Inv (pause_act s k now).1) ∧
    (∀ s k now, Inv (continue_act s k now).1) ∧
    (∀ s b now, Inv s → Inv (callback_step s b now).1) := by
  refine ⟨by simp [Inv, init_user_state], fun s now h => inv_close s now h,
    fun s k now _ => inv_start s k now, fun s k now h => inv_pause s k now h,
    fun s k now => inv_cont s k now, ?_⟩
  intro s b now h
  cases b with
  | woke_up => simp [Inv, callback_step]
  | sleep_time =>
      rcases hwk : s.wake_time with _ | w
      · simpa [callback_step, hwk] using h
      · have h1 : (callback_step s .sleep_time now).1 =
            (close_current_activity { s with sleep_time := some now } now).1 := by
          simp [callback_step, hwk]
        rw [h1]
        exact inv_close _ now h
  | start_contrib => exact inv_start s .contrib now
  | start_soft => exact inv_start s .soft now
  | start_hands => exact inv_start s .hands now
  | start_coding => exact inv_start s .coding now
  | pause k => exact inv_pause s k now h
  | cont k => exact inv_cont s k now
  | daily_report => exact h
  | show_menu => exact h
  | abuse_menu => exact h

/-- C6 witness: the invariant holds initially and after a concrete step. -/
theorem inv_preserved_witness :
    Inv init_user_state ∧ Inv (callback_step init_user_state .woke_up 5).1 :=
  ⟨inv_preserved.1, inv_preserved.2.2.2.2.2 init_user_state .woke_up 5 inv_preserved.1⟩

/-! ### C7 — the empty range aggregate and the range report -/

/-- C7: aggregating a range with no matching Finished Day row yields all-zero
sums and a day count of zero, and the range report on such an aggregate is
the "no finished days" message; when the day count is positive the rendered
per-day averages divide each sum by the day count. -/
theorem get_stats_range_empty (rows : List DayRow) (user_id : Int) (sd ed : MDate)
    (title : String)
    (h : ∀ r ∈ rows, row_matches user_id sd ed r = false) :
    get_stats_range rows user_id sd ed =
      { alive := 0, contrib := 0, hands := 0, soft := 0, coding := 0, days_count := 0 } ∧
    build_range_report_text title (some (get_stats_range rows user_id sd ed)) sd ed =
      title ++ "\n\nNo finished days in this period." ∧
    build_range_report_text title none sd ed =
      title ++ "\n\nNo finished days in this period." ∧
    (∀ st : RangeStats, st.days_count ≠ 0 →
      build_range_report_text title (some st) sd ed =
        title ++
        "\nPeriod: " ++ sd.iso ++ " – " ++ ed.iso ++
        "\nDays: " ++ toString st.days_count ++
        "\n" ++
        "\nAlive total: " ++ format_timedelta st.alive ++
        "\n" ++
        "\nWork total:" ++
        "\n• Contribution: " ++ format_timedelta st.contrib ++
        "\n• Abuse:" ++
        "\n  - Soft: " ++ format_timedelta st.soft ++
        "\n  - Hands: " ++ format_timedelta st.hands ++
        "\n• Coding: " ++ format_timedelta st.coding ++
        "\n" ++
        "\nPer day (avg):" ++
        "\n• Alive: " ++ format_timedelta (st.alive / (st.days_count : Int)) ++
        "\n• Contribution: " ++ format_timedelta (st.contrib / (st.days_count : Int)) ++
        "\n• Abuse Soft: " ++ format_timedelta (st.soft / (st.days_count : Int)) ++
        "\n• Abuse Hands: " ++ format_timedelta (st.hands / (st.days_count : Int)) ++
        "\n• Coding: " ++ format_timedelta (st.coding / (st.days_count : Int))) := by
  have hf : rows.filter (row_matches user_id sd ed) = [] := by
    rw [List.filter_eq_nil_iff]
    intro a ha
    simp [h a ha]
  have hz : get_stats_range rows user_id sd ed =
      { alive := 0, contrib := 0, hands := 0, soft := 0, coding := 0, days_count := 0 } := by
    simp [get_stats_range, hf]
  refine ⟨hz, ?_, rfl, ?_⟩
  · rw [hz]
    rfl
  · intro st hst
    simp [build_range_report_text, hst]

/-- C7 witness: a table whose only row belongs to another user aggregates to
zero and reports "no finished days". -/
theorem get_stats_range_empty_witness :
    get_stats_range [⟨1, ⟨2025, 1, 5⟩, 100, 10, 20, 30, 40⟩] 2 ⟨2025, 1, 1⟩ ⟨2025, 1, 31⟩ =
      { alive := 0, contrib := 0, hands := 0, soft := 0, coding := 0, days_count := 0 } ∧
    build_range_report_text "📊 Last 7 days"
        (some (get_stats_range [⟨1, ⟨2025, 1, 5⟩, 100, 10, 20, 30, 40⟩] 2
          ⟨2025, 1, 1⟩ ⟨2025, 1, 31⟩)) ⟨2025, 1, 1⟩ ⟨2025, 1, 31⟩ =
      "📊 Last 7 days" ++ "\n\nNo finished days in this period." := by
  have h := get_stats_range_empty [⟨1, ⟨2025, 1, 5⟩, 100, 10, 20, 30, 40⟩] 2
    ⟨2025, 1, 1⟩ ⟨2025, 1, 31⟩ "📊 Last 7 days" (by decide)
  exact ⟨h.1, h.2.1⟩

/-! ### C8 — month-request parsing -/

/-- C8: the combined token `2025-12` and the token pair `12 2025` resolve to
the same `[2025-12-01, 2025-12-31]` range, `2025-13` gives the distinct
"bad month" outcome, and tokens that fail to parse as integers give the
usage-hint outcome. -/
theorem month_cmd_spec (ty tm : Int) :
    month_cmd ["2025-12"] ty tm =
      .report ⟨2025, 12, 1⟩ ⟨2025, 12, 31⟩ "📊 Month 2025-12" ∧
    month_cmd ["12", "2025"] ty tm = month_cmd ["2025-12"] ty tm ∧
    month_cmd ["2025-13"] ty tm = .badMonth ∧
    (∀ a b, py_int a = none ∨ py_int b = none → month_cmd [a, b] ty tm = .usage) ∧
    (∀ a, a.data.contains '-' = true →
      py_int (split_once a).1 = none ∨ py_int (split_once a).2 = none →
      month_cmd [a] ty tm = .usage) := by
  refine ⟨rfl, rfl, rfl, ?_, ?_⟩
  · intro a b hab
    rcases hpa : py_int a with _ | m <;> rcases hpb : py_int b with _ | y <;>
      simp_all [month_cmd]
  · intro a hc hab
    rcases hpa : py_int (split_once a).1 with _ | y <;>
      rcases hpb : py_int (split_once a).2 with _ | m <;>
        simp_all [month_cmd]

/-- C8 witness: concrete instances of each clause. -/
theorem month_cmd_spec_witness :
    month_cmd ["2025-12"] 2000 1 =
      .report ⟨2025, 12, 1⟩ ⟨2025, 12, 31⟩ "📊 Month 2025-12" ∧
    month_cmd ["12", "2025"] 2000 1 = month_cmd ["2025-12"] 2000 1 ∧
    month_cmd ["2025-13"] 2000 1 = .badMonth ∧
    month_cmd ["x", "1"] 2000 1 = .usage ∧
    month_cmd ["-12"] 2000 1 = .usage := by
  have h := month_cmd_spec 2000 1
  exact ⟨h.1, h.2.1, h.2.2.1, h.2.2.2.1 "x" "1" (Or.inl (by decide)),
    h.2.2.2.2 "-12" (by decide) (Or.inl (by decide))⟩

/-! ### C9 — the duration formatter -/

/-- C9 counterexample: the formatter's output is not of the literal form
`XhYmin`: at 7380 seconds it prints `2h 3min` (with a space after the hour
part), not `2h3min`. -/
theorem format_timedelta_counterexample :
    format_timedelta 7380 = "2h 3min" ∧
    format_timedelta 7380 ≠
      toString ((7380 : Int) / 3600) ++ "h" ++ toString ((7380 : Int) % 3600 / 60) ++ "min" := by
  refine ⟨by decide, ?_⟩
  intro h
  exact absurd h (by decide)

/-- C9 (amended): `format_timedelta` is a pure function producing
`Xh Ymin` — hour part and minute part separated by a space — where for a
non-negative duration `X` is the whole-hour part and `Y` the remaining whole
minutes: `X * 3600 + Y * 60 ≤ t < X * 3600 + (Y + 1) * 60` and `Y < 60`. -/
theorem format_timedelta_spec (t : Int) (h : 0 ≤ t) :
    format_timedelta t =
      toString (t / 3600) ++ "h " ++ toString (t % 3600 / 60) ++ "min" ∧
    t / 3600 * 3600 + t % 3600 / 60 * 60 ≤ t ∧
    t < t / 3600 * 3600 + (t % 3600 / 60 + 1) * 60 ∧
    0 ≤ t % 3600 / 60 ∧ t % 3600 / 60 < 60 := by
  refine ⟨?_, by omega, by omega, by omega, by omega⟩
  show toString (max 0 t / 3600) ++ "h " ++ toString (max 0 t % 3600 / 60) ++ "min" = _
  rw [max_eq_right h]

/-- C9 witness: the amended statement at 7380 seconds. -/
theorem format_timedelta_spec_witness :
    (0 : Int) ≤ 7380 ∧
    format_timedelta 7380 =
      toString ((7380 : Int) / 3600) ++ "h " ++ toString ((7380 : Int) % 3600 / 60) ++ "min" :=
  ⟨by decide, (format_timedelta_spec 7380 (by decide)).1⟩

/-! ### C1 — time accounting over arbitrary start/pause/resume sequences -/

lemma step_bound (s : DayState) (e : Event) (t0 : Int)
    (h : ∀ u, e.time ≤ u → tracked s u ≤ u - t0) :
    ∀ u, e.time ≤ u → tracked (step s e) u ≤ u - t0 := by
  obtain ⟨op, tm⟩ := e
  intro u hu
  replace hu : tm ≤ u := hu
  have h1 := h tm le_rfl
  have hl : 0 ≤ live s tm := live_nonneg s tm
  unfold tracked at h1
  cases op with
  | start k =>
      show tracked (start_act s k tm).1 u ≤ u - t0
      unfold tracked
      rw [start_act_sum]
      have hlive : live (start_act s k tm).1 u = if u - tm < 0 then 0 else u - tm := rfl
      rw [hlive]
      omega
  | pause k =>
      show tracked (pause_act s k tm).1 u ≤ u - t0
      unfold pause_act
      split
      · exact h u hu
      · show tracked (close_current_activity s tm).1 u ≤ u - t0
        unfold tracked
        rw [close_sum, close_live_zero]
        have h2 := h u hu
        unfold tracked at h2
        have h3 : live s tm ≤ live s u := live_mono s hu
        omega
  | resume k =>
      show tracked (continue_act s k tm).1 u ≤ u - t0
      unfold tracked
      have hsum : sumTotals (continue_act s k tm).1 = sumTotals s := rfl
      have hlive : live (continue_act s k tm).1 u = if u - tm < 0 then 0 else u - tm := rfl
      rw [hsum, hlive]
      omega

lemma run_bound : ∀ (es : List Event) (s : DayState) (tm t0 : Int),
    chainFrom tm es →
    (∀ u, tm ≤ u → tracked s u ≤ u - t0) →
    ∀ u, tm ≤ u → (∀ e ∈ es, e.time ≤ u) → tracked (run s es) u ≤ u - t0 := by
  intro es
  induction es with
  | nil =>
      intro s tm t0 _ h u hu _
      exact h u hu
  | cons e rest ih =>
      intro s tm t0 hch h u hu hall
      obtain ⟨h1, h2⟩ := hch
      have hstep := step_bound s e t0 (fun v hv => h v (le_trans h1 hv))
      show tracked (run (step s e) rest) u ≤ u - t0
      exact ih (step s e) e.time t0 h2 hstep u (hall e (List.mem_cons_self e rest))
        (fun e' he' => hall e' (List.mem_cons_of_mem e he'))

lemma chainTimes_of_chainFrom (b : Int) (es : List Event) (h : chainFrom b es) :
    chainTimes es := by
  cases es with
  | nil => trivial
  | cons e rest => exact h.2

/-- C1 counterexample: for the sequence start contrib at 0, pause at 10,
resume at 20, pause at 30 — monotone timestamps, all at or before the
evaluation instant 30 — the accumulated totals plus the running activity's
elapsed time come to 20 seconds, not the 30 seconds of wall-clock time since
the first start: the paused gap 10..20 is (by design) not tracked, so the
claimed equality fails. -/
theorem tracked_equality_counterexample :
    chainTimes [⟨.start .contrib, 0⟩, ⟨.pause .contrib, 10⟩,
      ⟨.resume .contrib, 20⟩, ⟨.pause .contrib, 30⟩] ∧
    (∀ e ∈ [Event.mk (.start .contrib) 0, Event.mk (.pause .contrib) 10,
      Event.mk (.resume .contrib) 20, Event.mk (.pause .contrib) 30], e.time ≤ 30) ∧
    firstStart [⟨.start .contrib, 0⟩, ⟨.pause .contrib, 10⟩,
      ⟨.resume .contrib, 20⟩, ⟨.pause .contrib, 30⟩] = some 0 ∧
    tracked (run init_user_state [⟨.start .contrib, 0⟩, ⟨.pause .contrib, 10⟩,
      ⟨.resume .contrib, 20⟩, ⟨.pause .contrib, 30⟩]) 30 = 20 ∧
    (20 : Int) ≠ 30 - 0 :=
  ⟨by simp [chainTimes, chainFrom], by decide, by decide, by decide, by decide⟩

/-- C1 (amended): for every sequence of start/pause/resume operations with
non-decreasing timestamps applied to a fresh Day State, the sum of all
accumulated totals plus the elapsed duration of the currently-running
activity (if any), evaluated at any instant `now` at or after all the
operations, is at most the wall-clock time elapsed since the first start of
any activity — equality can fail because time spent with no activity
running, or discarded by a resume that overwrites a running activity, is not
tracked. -/
theorem tracked_le_wallclock (es : List Event) (now t0 : Int)
    (hmono : chainTimes es) (hle : ∀ e ∈ es, e.time ≤ now)
    (hfs : firstStart es = some t0) :
    tracked (run init_user_state es) now ≤ now - t0 := by
  induction es with
  | nil => simp [firstStart] at hfs
  | cons e rest ih =>
      by_cases ha : isActivating e.op = true
      · have ht0 : e.time = t0 := by
          simp [firstStart, ha] at hfs
          exact hfs
        show tracked (run (step init_user_state e) rest) now ≤ now - t0
        have hbase : ∀ u, e.time ≤ u → tracked (step init_user_state e) u ≤ u - t0 := by
          obtain ⟨op, tm⟩ := e
          cases op with
          | start k =>
              intro u hu
              show tracked (start_act init_user_state k tm).1 u ≤ u - t0
              have e1 : sumTotals (start_act init_user_state k tm).1 = 0 := rfl
              have e2 : live (start_act init_user_state k tm).1 u =
                  if u - tm < 0 then 0 else u - tm := rfl
              unfold tracked
              rw [e1, e2]
              simp only at ht0 hu
              omega
          | pause k => simp [isActivating] at ha
          | resume k =>
              intro u hu
              show tracked (continue_act init_user_state k tm).1 u ≤ u - t0
              have e1 : sumTotals (continue_act init_user_state k tm).1 = 0 := rfl
              have e2 : live (continue_act init_user_state k tm).1 u =
                  if u - tm < 0 then 0 else u - tm := rfl
              unfold tracked
              rw [e1, e2]
              simp only at ht0 hu
              omega
        exact run_bound rest (step init_user_state e) e.time t0 hmono hbase now
          (hle e (List.mem_cons_self e rest))
          (fun e' he' => hle e' (List.mem_cons_of_mem e he'))
      · have hstep : step init_user_state e = init_user_state := by
          obtain ⟨op, tm⟩ := e
          cases op with
          | start k => exact absurd rfl ha
          | pause k => simp [step, pause_act, init_user_state]
          | resume k => exact absurd rfl ha
        show tracked (run (step init_user_state e) rest) now ≤ now - t0
        rw [hstep]
        apply ih
        · exact chainTimes_of_chainFrom e.time rest hmono
        · exact fun e' he' => hle e' (List.mem_cons_of_mem e he')
        · simpa [firstStart, ha] using hfs

/-- C1 witness: the amended bound evaluated on a concrete gapped sequence. -/
theorem tracked_le_wallclock_witness :
    tracked (run init_user_state [⟨.start .contrib, 0⟩, ⟨.pause .contrib, 10⟩,
      ⟨.resume .contrib, 20⟩, ⟨.pause .contrib, 30⟩]) 35 ≤ 35 - 0 :=
  tracked_le_wallclock _ 35 0 (by simp [chainTimes, chainFrom]) (by decide) (by decide)

end DailyTracker
